import Mathlib

/-!
Verification of the ROI geometry editor of the vehicle-analytics frontend
(src/frontend/src/pages/ROISetup.jsx). The file ships two component
variants: the primary one (camera-selectable, normalized persistence via
PUT /cameras/:id/roi) and an alternate legacy one (fixed camera/gate,
absolute pixel corners via POST /rois/). JavaScript numbers are embedded
as rationals; nullable values as Option; the React state of the component
as an explicit record; event-handler execution as a step function over an
event list, returning the next state together with the network requests
issued.
-/

namespace ROISetup

/-- Pixel-space rectangle {x, y, width, height}; width and height may be
negative mid-gesture. -/
structure PixelRect where
  x : ℚ
  y : ℚ
  width : ℚ
  height : ℚ
deriving DecidableEq

/-- Normalized rectangle {x, y, w, h} relative to snapshot dimensions. -/
structure NormalizedRect where
  x : ℚ
  y : ℚ
  w : ℚ
  h : ℚ
deriving DecidableEq

/-- A loaded snapshot image: the camera whose frame it depicts plus its
pixel dimensions (img.width, img.height as read by the component). -/
structure Img where
  cam : ℕ
  width : ℚ
  height : ℚ
deriving DecidableEq

/-- Body of the primary variant persistence call:
api.put sends the spread normalized rect plus coordinate_type
set to the string normalized (ROISetup.jsx lines 110-113). -/
structure PutRoiBody where
  rect : NormalizedRect
  coordinate_type : String
deriving DecidableEq

/-- A network request issued by the component: the snapshot GET and ROI GET
fired on camera selection, and the persistence PUT fired on save. -/
inductive Request where
  | getSnapshot (camId : ℕ)
  | getRoi (camId : ℕ)
  | putRoi (camId : ℕ) (body : PutRoiBody)
deriving DecidableEq

/-- React state of the primary ROISetup component (lines 7-12):
selectedCameraId, snapshot, rect, isDrawing, roiNormalized. -/
structure EditorState where
  selectedCameraId : Option ℕ
  snapshot : Option Img
  rect : Option PixelRect
  isDrawing : Bool
  roiNormalized : Option NormalizedRect
deriving DecidableEq

/-- Initial state: all null, isDrawing false. -/
def initState : EditorState :=
  { selectedCameraId := none, snapshot := none, rect := none,
    isDrawing := false, roiNormalized := none }

/-- normalizeRect (lines 67-74): null passes through; otherwise the corner
is moved to the minimum of the two corners and width/height are made
non-negative via Math.abs. -/
def normalizeRect : Option PixelRect → Option PixelRect
  | none => none
  | some raw =>
    some { x := min raw.x (raw.x + raw.width),
           y := min raw.y (raw.y + raw.height),
           width := |raw.width|,
           height := |raw.height| }

/-- The pixel-to-normalized conversion inlined in handleSave
(lines 95-100): divide x and width by snapshot.width, y and height by
snapshot.height. -/
def toNormalized (r : PixelRect) (snap : Img) : NormalizedRect :=
  { x := r.x / snap.width,
    y := r.y / snap.height,
    w := r.width / snap.width,
    h := r.height / snap.height }

/-- The normalized-to-pixel conversion inlined in the seeding effect
(lines 57-65): multiply back by the snapshot dimensions. -/
def toPixel (roi : NormalizedRect) (snap : Img) : PixelRect :=
  { x := roi.x * snap.width,
    y := roi.y * snap.height,
    width := roi.w * snap.width,
    height := roi.h * snap.height }

/-- The on-screen readout computation (lines 128-135): null unless both a
rect and a snapshot are present, otherwise the division by snapshot
dimensions, field for field. -/
def normalizedValues (rect : Option PixelRect) (snapshot : Option Img) :
    Option NormalizedRect :=
  match rect, snapshot with
  | some r, some s =>
    some { x := r.x / s.width, y := r.y / s.height,
           w := r.width / s.width, h := r.height / s.height }
  | _, _ => none

/-- The pre-persistence validation of handleSave (lines 101-108): the
first if-block rejects x less than 0, y less than 0, w at most 0 or h at
most 0 with the message of line 102; the second rejects x+w above 1 or
y+h above 1 with the message of line 106; otherwise the rect is accepted
(none = no rejection). -/
def validate (n : NormalizedRect) : Option String :=
  if n.x < 0 ∨ n.y < 0 ∨ n.w ≤ 0 ∨ n.h ≤ 0 then
    some "ROI must be within the image bounds."
  else if n.x + n.w > 1 ∨ n.y + n.h > 1 then
    some "ROI must fit within the image bounds."
  else
    none

/-- The React effect with dependencies [snapshot, roiNormalized]
(lines 57-65): when both are present, the rect is re-seeded from the
normalized ROI converted to pixels; otherwise nothing happens. Applied
after every state update that touches one of its dependencies. -/
def seedEffect (s : EditorState) : EditorState :=
  match s.snapshot, s.roiNormalized with
  | some snap, some roi => { s with rect := some (toPixel roi snap) }
  | _, _ => s

/-- handleSave (lines 93-120): guarded on rect, snapshot and a truthy
selectedCameraId (0 is falsy in JavaScript); converts to normalized form,
runs the two validation blocks, and only when both pass issues the PUT.
setRoiNormalized runs only after the await succeeds (line 114), which
re-triggers the seeding effect; the catch block changes no state. -/
def handleSave (s : EditorState) (serverAccepts : Bool) :
    EditorState × List Request :=
  match s.rect, s.snapshot, s.selectedCameraId with
  | some r, some snap, some cid =>
    if cid = 0 then (s, [])
    else
      match validate (toNormalized r snap) with
      | some _ => (s, [])
      | none =>
        let body : PutRoiBody :=
          { rect := toNormalized r snap, coordinate_type := "normalized" }
        if serverAccepts then
          (seedEffect { s with roiNormalized := some (toNormalized r snap) },
           [Request.putRoi cid body])
        else
          (s, [Request.putRoi cid body])
  | _, _, _ => (s, [])

/-- External events driving the component: camera selection (the effect of
lines 31-55 resets state and issues the two fetches when the id is
truthy), arrival of a snapshot or ROI response (applied by the handlers of
lines 40 and 46 with no check against the currently selected camera),
the three pointer handlers (lines 76-91), save completion, and clear. -/
inductive Event where
  | selectCamera (id : ℕ)
  | snapshotArrive (img : Img)
  | roiArrive (roi : NormalizedRect)
  | mouseDown (x y : ℚ)
  | mouseMove (x y : ℚ)
  | mouseUp
  | save (serverAccepts : Bool)
  | clear
deriving DecidableEq

/-- One event-handler execution, returning the next state and the network
requests issued. Transcribed handler by handler from the primary variant. -/
def step (s : EditorState) : Event → EditorState × List Request
  | Event.selectCamera id =>
    if id = 0 then ({ s with selectedCameraId := some id }, [])
    else
      ({ s with selectedCameraId := some id, snapshot := none,
                rect := none, roiNormalized := none },
       [Request.getSnapshot id, Request.getRoi id])
  | Event.snapshotArrive img =>
    (seedEffect { s with snapshot := some img }, [])
  | Event.roiArrive roi =>
    (seedEffect { s with roiNormalized := some roi }, [])
  | Event.mouseDown x y =>
    match s.snapshot with
    | none => (s, [])
    | some _ =>
      ({ s with isDrawing := true,
                rect := some { x := x, y := y, width := 0, height := 0 } }, [])
  | Event.mouseMove x y =>
    match s.rect, s.isDrawing with
    | some r, true =>
      ({ s with rect := some { r with width := x - r.x, height := y - r.y } }, [])
    | _, _ => (s, [])
  | Event.mouseUp =>
    match s.rect with
    | none => (s, [])
    | some r =>
      ({ s with isDrawing := false, rect := normalizeRect (some r) }, [])
  | Event.save ok => handleSave s ok
  | Event.clear => ({ s with rect := none, roiNormalized := none }, [])

/-- Run a list of events from a state, accumulating issued requests. -/
def run (s : EditorState) : List Event → EditorState × List Request
  | [] => (s, [])
  | e :: es =>
    let p := step s e
    let q := run p.1 es
    (q.1, p.2 ++ q.2)

/-- A full drawing gesture: a mouse press at (a, b), the pointer moves,
and the release (the pointer having last moved to the release point). -/
def gestureEvents (a b : ℚ) (ms : List (ℚ × ℚ)) : List Event :=
  Event.mouseDown a b ::
    ((ms.map fun p => Event.mouseMove p.1 p.2) ++ [Event.mouseUp])

/-- Body of the alternate legacy variant persistence call
(lines 256-265 of the second component in the file): POST /rois/ with
gate_id, camera_id, a shape tag and a list of absolute pixel corner
coordinates. -/
structure AltRoiBody where
  gate_id : ℕ
  camera_id : ℕ
  shape : String
  coordinates : List (List ℚ)
deriving DecidableEq

/-- handleSave of the alternate legacy variant (lines 254-267): guarded
only on rect; sends the two absolute pixel corners (top-left and
bottom-right) with shape tag rectangle, for the fixed demo
camera 1 and gate 1. No conversion to normalized form is performed. -/
def altHandleSave : Option PixelRect → Option AltRoiBody
  | none => none
  | some r =>
    some { gate_id := 1, camera_id := 1, shape := "rectangle",
           coordinates := [[r.x, r.y], [r.x + r.width, r.y + r.height]] }

/-- For any anchor and signed extent, shifting the minimum corner by the
absolute extent reaches the maximum corner. -/
theorem min_add_abs (a w : ℚ) : min a (a + w) + |w| = max a (a + w) := by
  rcases le_or_lt 0 w with h | h
  · rw [abs_of_nonneg h, min_eq_left (by linarith), max_eq_right (by linarith)]
  · rw [abs_of_neg h, min_eq_right (by linarith), max_eq_left (by linarith)]
    ring

/-- The minimum corner is reached by adding a non-negative extent. -/
theorem min_self_add_abs (a w : ℚ) : min a (a + |w|) = a :=
  min_eq_left (le_add_of_nonneg_right (abs_nonneg w))

/-- The maximum corner is reached by adding the absolute extent. -/
theorem max_self_add_abs (a w : ℚ) : max a (a + |w|) = a + |w| :=
  max_eq_right (le_add_of_nonneg_right (abs_nonneg w))

/-- Acceptance characterization of the two validation blocks. -/
theorem validate_none_iff (n : NormalizedRect) :
    validate n = none ↔
      (0 ≤ n.x ∧ 0 ≤ n.y ∧ 0 < n.w ∧ 0 < n.h ∧
       n.x + n.w ≤ 1 ∧ n.y + n.h ≤ 1) := by
  unfold validate
  split_ifs with h1 h2
  · simp only [false_iff]
    rintro ⟨hx, hy, hw, hh, _, _⟩
    rcases h1 with h | h | h | h <;> linarith
  · simp only [false_iff]
    rintro ⟨hx, hy, hw, hh, hxw, hyh⟩
    rcases h2 with h | h <;> linarith
  · push_neg at h1 h2
    simp only [true_iff]
    exact ⟨h1.1, h1.2.1, h1.2.2.1, h1.2.2.2, h2.1, h2.2⟩

/-- C1: the pre-persistence validation accepts a NormalizedRect exactly
when x ≥ 0, y ≥ 0, w > 0, h > 0, x + w ≤ 1 and y + h ≤ 1; any rect
violating one of these invariants is rejected. -/
theorem validate_accepts_iff (n : NormalizedRect) :
    validate n = none ↔
      (0 ≤ n.x ∧ 0 ≤ n.y ∧ 0 < n.w ∧ 0 < n.h ∧
       n.x + n.w ≤ 1 ∧ n.y + n.h ≤ 1) :=
  validate_none_iff n

/-- C7 counterexample: a rect whose origin is out of bounds
(x = -0.1 < 0) and a degenerate rect (w = 0) receive the very same
rejection reason, so the three failure classes are not mutually
distinguishable. -/
theorem validate_reasons_collide :
    validate { x := -1/10, y := 1/10, w := 1/2, h := 1/2 } =
      validate { x := 1/10, y := 1/10, w := 0, h := 1/2 } ∧
    validate { x := -1/10, y := 1/10, w := 1/2, h := 1/2 } ≠ none := by
  refine ⟨by norm_num [validate], ?_⟩
  norm_num [validate]
  exact Option.some_ne_none _

/-- C7 amended: validate distinguishes exactly two rejection reasons:
rects with an out-of-bounds origin or a degenerate extent receive the
within-bounds message, rects passing that check but exceeding the far
edge receive the fit-within message, and the two messages differ; origin
and degenerate failures share one reason. -/
theorem validate_two_reasons (n : NormalizedRect) :
    ((n.x < 0 ∨ n.y < 0 ∨ n.w ≤ 0 ∨ n.h ≤ 0) →
      validate n = some "ROI must be within the image bounds.") ∧
    ((0 ≤ n.x ∧ 0 ≤ n.y ∧ 0 < n.w ∧ 0 < n.h) →
      (n.x + n.w > 1 ∨ n.y + n.h > 1) →
      validate n = some "ROI must fit within the image bounds.") ∧
    ("ROI must be within the image bounds." : String) ≠
      "ROI must fit within the image bounds." := by
  refine ⟨?_, ?_, by decide⟩
  · intro h; unfold validate; rw [if_pos h]
  · rintro ⟨hx, hy, hw, hh⟩ h2
    unfold validate
    rw [if_neg, if_pos h2]
    push_neg
    exact ⟨hx, hy, hw, hh⟩

/-- C7 witness: the amended theorem applied to a rect with negative
origin and to the far-edge example rect of the spec (x 0.9, w 0.2). -/
theorem validate_two_reasons_witness :
    validate { x := -1/10, y := 1/10, w := 1/2, h := 1/2 } =
      some "ROI must be within the image bounds." ∧
    validate { x := 9/10, y := 1/10, w := 1/5, h := 1/10 } =
      some "ROI must fit within the image bounds." :=
  ⟨(validate_two_reasons _).1 (by norm_num),
   (validate_two_reasons _).2.1 (by norm_num) (by norm_num)⟩

/-- C9: normalizeRect is null-preserving and idempotent, and its result
has non-negative width and height and the same minimum and maximum
corners as its input. -/
theorem normalizeRect_idempotent (r : PixelRect) :
    normalizeRect none = none ∧
    normalizeRect (normalizeRect (some r)) = normalizeRect (some r) ∧
    ∃ q, normalizeRect (some r) = some q ∧
      0 ≤ q.width ∧ 0 ≤ q.height ∧
      min q.x (q.x + q.width) = min r.x (r.x + r.width) ∧
      max q.x (q.x + q.width) = max r.x (r.x + r.width) ∧
      min q.y (q.y + q.height) = min r.y (r.y + r.height) ∧
      max q.y (q.y + q.height) = max r.y (r.y + r.height) := by
  refine ⟨rfl, ?_, ?_⟩
  · simp only [normalizeRect, abs_abs, min_self_add_abs]
  · refine ⟨⟨min r.x (r.x + r.width), min r.y (r.y + r.height),
      |r.width|, |r.height|⟩, rfl, abs_nonneg _, abs_nonneg _, ?_, ?_, ?_, ?_⟩ <;>
      dsimp only
    · exact min_self_add_abs _ r.width
    · rw [max_self_add_abs]
      exact min_add_abs r.x r.width
    · exact min_self_add_abs _ r.height
    · rw [max_self_add_abs]
      exact min_add_abs r.y r.height

/-- C10: the on-screen Normalized-ROI readout and the save payload are
computed by the same formula from the candidate rect and the snapshot, so
the two computations agree as functions. -/
theorem normalizedValues_eq_save_payload (r : PixelRect) (s : Img) :
    normalizedValues (some r) (some s) = some (toNormalized r s) := rfl

/-- C3: a save whose persistence call fails leaves the entire editor
state unchanged, in particular both the cached roiNormalized value and
the local candidate rect are exactly as before the call; the cached ROI
is therefore updated only after a successful call. -/
theorem save_failure_leaves_state_unchanged (s : EditorState) :
    (handleSave s false).1 = s := by
  unfold handleSave
  rcases hr : s.rect with _ | r
  · rfl
  · rcases hs : s.snapshot with _ | sn
    · rfl
    · rcases hc : s.selectedCameraId with _ | c
      · rfl
      · dsimp only
        split_ifs with h0 h1
        · rfl
        · exact h1.elim
        · rcases hv : validate (toNormalized r sn) with _ | msg <;> rfl

/-- C8: with no candidate rectangle or no loaded snapshot, save is a
no-op: no request is issued, no error is raised and the state is
returned unchanged. -/
theorem save_noop_without_rect_or_snapshot (s : EditorState) (ok : Bool)
    (h : s.rect = none ∨ s.snapshot = none) :
    handleSave s ok = (s, []) := by
  unfold handleSave
  rcases h with h | h
  · rw [h]
  · rcases hr : s.rect with _ | r
    · rfl
    · rw [h]

/-- C8 witness: save on the initial state (no rect, no snapshot) is a
no-op. -/
theorem save_noop_witness : handleSave initState true = (initState, []) :=
  save_noop_without_rect_or_snapshot initState true (Or.inl rfl)

/-- C4: converting a pixel rect to normalized form and back through the
same snapshot dimensions reproduces it exactly in the exact-arithmetic
model, so after rounding to integer display coordinates the error is at
most one pixel. -/
theorem toPixel_toNormalized_roundtrip (r : PixelRect) (s : Img)
    (hw : 0 < s.width) (hh : 0 < s.height) :
    toPixel (toNormalized r s) s = r := by
  have hw0 : s.width ≠ 0 := ne_of_gt hw
  have hh0 : s.height ≠ 0 := ne_of_gt hh
  cases r with
  | mk x y w h =>
    simp only [toPixel, toNormalized]
    congr 1 <;> field_simp

/-- C4 witness: the spec example snapshot 800 by 600 with pixel rect
(80, 60, 160, 120) round-trips exactly. -/
theorem toPixel_toNormalized_roundtrip_witness :
    toPixel (toNormalized ⟨80, 60, 160, 120⟩ ⟨1, 800, 600⟩) ⟨1, 800, 600⟩ =
      (⟨80, 60, 160, 120⟩ : PixelRect) :=
  toPixel_toNormalized_roundtrip ⟨80, 60, 160, 120⟩ ⟨1, 800, 600⟩
    (by norm_num) (by norm_num)

/-- C2 (code bug): the snapshot-arrival handler applies a response
without checking which camera it was issued for. After selecting
camera 1 and then camera 2 (both snapshot fetches genuinely issued, as
the request log shows), the late arrival of the response issued for
camera 1 overwrites the already-arrived camera 2 snapshot: the final
displayed snapshot depicts camera 1 while camera 2 is selected, which
the claim forbids. -/
theorem stale_snapshot_overwrites :
    (run initState
        [Event.selectCamera 1, Event.selectCamera 2,
         Event.snapshotArrive ⟨2, 800, 600⟩,
         Event.snapshotArrive ⟨1, 640, 480⟩]).1.selectedCameraId = some 2 ∧
    (run initState
        [Event.selectCamera 1, Event.selectCamera 2,
         Event.snapshotArrive ⟨2, 800, 600⟩,
         Event.snapshotArrive ⟨1, 640, 480⟩]).1.snapshot =
      some ⟨1, 640, 480⟩ ∧
    (Img.cam ⟨1, 640, 480⟩ = 1 ∧ (1 : ℕ) ≠ 2) ∧
    (run initState
        [Event.selectCamera 1, Event.selectCamera 2,
         Event.snapshotArrive ⟨2, 800, 600⟩,
         Event.snapshotArrive ⟨1, 640, 480⟩]).2 =
      [Request.getSnapshot 1, Request.getRoi 1,
       Request.getSnapshot 2, Request.getRoi 2] :=
  ⟨rfl, rfl, ⟨rfl, by decide⟩, rfl⟩

/-- Running an appended event list is running the two lists in order. -/
theorem run_append_fst (s : EditorState) (l1 l2 : List Event) :
    (run s (l1 ++ l2)).1 = (run (run s l1).1 l2).1 := by
  induction l1 generalizing s with
  | nil => rfl
  | cons e es ih =>
    simp only [List.cons_append, run]
    exact ih (step s e).1

/-- While drawing, a sequence of mouse moves ending at (c, d) keeps the
anchor and sets the extent to the span from the anchor to the pointer. -/
theorem run_mouseMoves (ms : List (ℚ × ℚ)) (c d : ℚ) :
    ∀ (s : EditorState) (a b w h : ℚ), s.isDrawing = true →
      s.rect = some ⟨a, b, w, h⟩ →
      (run s ((ms ++ [(c, d)]).map fun p => Event.mouseMove p.1 p.2)).1 =
        { s with rect := some ⟨a, b, c - a, d - b⟩ } := by
  induction ms with
  | nil =>
    intro s a b w h hdraw hrect
    simp only [List.nil_append, List.map_cons, List.map_nil, run, step,
      hrect, hdraw]
  | cons p ps ih =>
    intro s a b w h hdraw hrect
    simp only [List.cons_append, List.map_cons, run, step, hrect, hdraw]
    exact ih _ a b _ _ rfl rfl

/-- C5: a drawing gesture pressed at (a, b), moved through any points with
the pointer last at the release point (c, d), and released, leaves
Drawing mode and retains the corner-normalized rectangle: origin at the
minimum corner of the span and non-negative width and height. -/
theorem drawing_gesture_corner_normalized (s : EditorState) (snap : Img)
    (hsnap : s.snapshot = some snap) (a b c d : ℚ) (ms : List (ℚ × ℚ)) :
    (run s (gestureEvents a b (ms ++ [(c, d)]))).1.rect =
      some ⟨min a c, min b d, |c - a|, |d - b|⟩ ∧
    (run s (gestureEvents a b (ms ++ [(c, d)]))).1.isDrawing = false := by
  have hsplit :
      (run s (gestureEvents a b (ms ++ [(c, d)]))).1 =
        (run (run (step s (Event.mouseDown a b)).1
            ((ms ++ [(c, d)]).map fun p => Event.mouseMove p.1 p.2)).1
          [Event.mouseUp]).1 := by
    show (run s (Event.mouseDown a b ::
        (((ms ++ [(c, d)]).map fun p => Event.mouseMove p.1 p.2) ++
          [Event.mouseUp]))).1 = _
    simp only [run]
    exact run_append_fst _ _ _
  have hdown : (step s (Event.mouseDown a b)).1 =
      { s with isDrawing := true, rect := some ⟨a, b, 0, 0⟩ } := by
    simp only [step, hsnap]
  rw [hsplit, hdown, run_mouseMoves ms c d _ a b 0 0 rfl rfl]
  have hc : a + (c - a) = c := by ring
  have hd : b + (d - b) = d := by ring
  simp only [run, step, normalizeRect, hc, hd]
  constructor <;> trivial

/-- C5 witness: a press at (50, 50), moves through (30, 40) to (10, 20),
and a release yield the PixelRect with origin (10, 20), width 40 and
height 30. -/
theorem drawing_gesture_corner_normalized_witness :
    (run { selectedCameraId := some 1, snapshot := some ⟨1, 800, 600⟩,
           rect := none, isDrawing := false, roiNormalized := none }
        (gestureEvents 50 50 [(30, 40), (10, 20)])).1.rect =
      some ⟨10, 20, 40, 30⟩ := by
  have h := drawing_gesture_corner_normalized
    { selectedCameraId := some 1, snapshot := some ⟨1, 800, 600⟩,
      rect := none, isDrawing := false, roiNormalized := none }
    ⟨1, 800, 600⟩ rfl 50 50 10 20 [(30, 40)]
  refine h.1.trans ?_
  norm_num [abs_sub_comm]

/-- C6 counterexample: the alternate legacy variant of the component
posts absolute pixel corner coordinates: saving the pixel rect
(50, 20, 100, 80) transmits the corners (50, 20) and (150, 100), whose
values lie far outside [0, 1], so a representation other than a
NormalizedRect is transmitted to a persistence endpoint. -/
theorem altSave_transmits_pixel_corners :
    altHandleSave (some ⟨50, 20, 100, 80⟩) =
      some { gate_id := 1, camera_id := 1, shape := "rectangle",
             coordinates := [[50, 20], [150, 100]] } ∧
    ¬ ((50 : ℚ) ≤ 1) := by
  constructor
  · norm_num [altHandleSave]
  · norm_num

/-- C6 amended: in the primary normalized-per-camera variant, every
rectangle sent to the persistence endpoint is a NormalizedRect payload
tagged with coordinate_type normalized and satisfying all five §3
invariants; the alternate legacy variant instead posts absolute pixel
corner coordinates. -/
theorem primary_save_payload_normalized (s : EditorState) (ok : Bool)
    (req : Request) (hreq : req ∈ (handleSave s ok).2) :
    ∃ cid n,
      req = Request.putRoi cid { rect := n, coordinate_type := "normalized" } ∧
      0 ≤ n.x ∧ 0 ≤ n.y ∧ 0 < n.w ∧ 0 < n.h ∧
      n.x + n.w ≤ 1 ∧ n.y + n.h ≤ 1 := by
  unfold handleSave at hreq
  rcases hr : s.rect with _ | r
  · rw [hr] at hreq; simp at hreq
  rw [hr] at hreq
  rcases hs : s.snapshot with _ | sn
  · rw [hs] at hreq; simp at hreq
  rw [hs] at hreq
  rcases hc : s.selectedCameraId with _ | c
  · rw [hc] at hreq; simp at hreq
  rw [hc] at hreq
  dsimp only at hreq
  split_ifs at hreq with h0 hok
  · simp at hreq
  all_goals
    rcases hv : validate (toNormalized r sn) with _ | msg
  case pos.none | neg.none =>
    rw [hv] at hreq
    have hbounds := (validate_none_iff (toNormalized r sn)).1 hv
    simp only [List.mem_singleton] at hreq
    exact ⟨c, toNormalized r sn, hreq, hbounds.1, hbounds.2.1,
      hbounds.2.2.1, hbounds.2.2.2.1, hbounds.2.2.2.2.1,
      hbounds.2.2.2.2.2⟩
  all_goals
    rw [hv] at hreq
  all_goals
    simp at hreq

/-- C6 witness: the spec example rect (80, 60, 160, 120) on the 800 by
600 snapshot produces a request whose payload is the normalized rect
tagged coordinate_type normalized with all fields within bounds. -/
theorem primary_save_payload_normalized_witness :
    ∃ cid n,
      Request.putRoi 1
          { rect := toNormalized ⟨80, 60, 160, 120⟩ ⟨1, 800, 600⟩,
            coordinate_type := "normalized" } =
        Request.putRoi cid { rect := n, coordinate_type := "normalized" } ∧
      0 ≤ n.x ∧ 0 ≤ n.y ∧ 0 < n.w ∧ 0 < n.h ∧
      n.x + n.w ≤ 1 ∧ n.y + n.h ≤ 1 :=
  primary_save_payload_normalized
    { selectedCameraId := some 1, snapshot := some ⟨1, 800, 600⟩,
      rect := some ⟨80, 60, 160, 120⟩, isDrawing := false,
      roiNormalized := none }
    true _
    (by norm_num [handleSave, validate, toNormalized])

end ROISetup
